import Mathlib

/-!
# Verification of the Portfolio theme registry and color utilities

A shallow embedding, in Lean 4, of the TypeScript theme subsystem of the
Portfolio repository:

* `src/themes/constants.ts` — shared constants and the hex/RGB color
  conversions (`hexToRgb`, `rgbToHex`);
* `src/themes/utils.ts` — the runtime apply routine (`applyThemeColors`,
  `applyThemeStyles`, `setDarkMode`, `saveThemePreference`,
  `loadThemePreference`, `themeColorsToShaderColors`,
  `dispatchThemeChange`, `applyTheme`, `camelToKebab`, `clamp`,
  `smoothstep`);
* `src/themes/index.ts` — the registry (`themes`, `allThemes`, `getTheme`,
  `getDefaultTheme`, `setTheme`, `initializeTheme`, `registerTheme`,
  `hasTheme`, `getThemeIds`);
* `src/themes/types.ts` — the data model, and the two built-in themes
  (`domain-warping`, `tennis`).

JavaScript numbers are modelled as rationals (`ℚ`); the DOM and
`localStorage` are modelled as an explicit state record threaded through
the operations, with the `try`/`catch` around storage access modelled by
storage primitives returning `Except`.  GLSL shader source strings are
opaque data to this subsystem (never inspected), so they are embedded as
opaque tokens.
-/

/-! ## Constants (`src/themes/constants.ts`) -/

/-- `DEFAULT_THEME_ID = 'domain-warping'`. -/
def DEFAULT_THEME_ID : String := "domain-warping"

/-- `THEME_STORAGE_KEY = 'portfolio-theme'`. -/
def THEME_STORAGE_KEY : String := "portfolio-theme"

/-! ## Hex/RGB conversions (`src/themes/constants.ts`)

`hexToRgb` uses the regex `/^#?([a-f\d]{2})([a-f\d]{2})([a-f\d]{2})$/i`:
an optional leading `#` followed by exactly six hex digits (either case).
-/

/-- A character matched by the regex class `[a-f\d]` with the `i` flag:
a decimal digit or a letter `a`–`f` in either case. -/
def isHexDigitJs (c : Char) : Bool :=
  c.isDigit || ('a' ≤ c && c ≤ 'f') || ('A' ≤ c && c ≤ 'F')

/-- Numeric value of one hex digit, as consumed by `parseInt(s, 16)`. -/
def hexDigitVal (c : Char) : Nat :=
  if c.isDigit then c.toNat - '0'.toNat
  else if 'a' ≤ c then c.toNat - 'a'.toNat + 10
  else c.toNat - 'A'.toNat + 10

/-- The optional leading `#` of the regex `^#?`. -/
def stripHash : List Char → List Char
  | [] => []
  | c :: cs => if c = '#' then cs else c :: cs

/-- The regex match of `hexToRgb`: after the optional `#`, exactly six hex
digits, grouped in pairs; each pair is converted by `parseInt(_, 16)`. -/
def hexMatch (cs : List Char) : Option (Nat × Nat × Nat) :=
  match stripHash cs with
  | [c1, c2, c3, c4, c5, c6] =>
      if (isHexDigitJs c1 && isHexDigitJs c2 && isHexDigitJs c3 &&
          isHexDigitJs c4 && isHexDigitJs c5 && isHexDigitJs c6) then
        some (hexDigitVal c1 * 16 + hexDigitVal c2,
              hexDigitVal c3 * 16 + hexDigitVal c4,
              hexDigitVal c5 * 16 + hexDigitVal c6)
      else none
  | _ => none

/-- `RGB` tuple from `types.ts` (0–1 range). -/
abbrev RGB := ℚ × ℚ × ℚ

/-- `hexToRgb(hex)`: parse the hex color and divide each byte by 255;
on a failed match return `[0, 0, 0]`. -/
def hexToRgb (hex : String) : RGB :=
  match hexMatch hex.data with
  | some (a, b, c) => ((a : ℚ) / 255, (b : ℚ) / 255, (c : ℚ) / 255)
  | none => (0, 0, 0)

/-- JavaScript `Math.round`: round half toward positive infinity,
`⌊x + 1/2⌋`. -/
def jsRound (q : ℚ) : ℤ := ⌊q + 1/2⌋

/-- JavaScript `Number.prototype.toString(16)` on an integer value:
a minus sign for negative values, then lowercase hex digits with no
leading zeros. -/
def jsIntToHexStr (i : ℤ) : String :=
  if i < 0 then "-" ++ ⟨Nat.toDigits 16 i.natAbs⟩ else ⟨Nat.toDigits 16 i.toNat⟩

/-- `String.prototype.padStart(2, '0')`. -/
def padStart2 (s : String) : String :=
  ⟨List.replicate (2 - s.length) '0' ++ s.data⟩

/-- The inner `toHex` of `rgbToHex`:
`Math.round(n * 255).toString(16).padStart(2, '0')`. -/
def toHex (n : ℚ) : String := padStart2 (jsIntToHexStr (jsRound (n * 255)))

/-- `rgbToHex(r, g, b)`: `` `#${toHex(r)}${toHex(g)}${toHex(b)}` ``. -/
def rgbToHex (r g b : ℚ) : String := "#" ++ toHex r ++ toHex g ++ toHex b

/-! ## CPU-side GLSL mirrors (`src/themes/utils.ts`) -/

/-- `clamp(value, min, max) = Math.min(Math.max(value, min), max)`. -/
def clamp (value lo hi : ℚ) : ℚ := min (max value lo) hi

/-- `smoothstep(edge0, edge1, x)` from `utils.ts`. -/
def smoothstep (edge0 edge1 x : ℚ) : ℚ :=
  let t := clamp ((x - edge0) / (edge1 - edge0)) 0 1
  t * t * (3 - 2 * t)

/-- The cubic Hermite polynomial `t² (3 − 2 t)` named by the spec. -/
def hermite (t : ℚ) : ℚ := t * t * (3 - 2 * t)

/-! ## Data model (`src/themes/types.ts`)

GLSL shader source strings are never inspected by this subsystem (they are
compiled by the out-of-scope renderer), so they are embedded as opaque
tokens, one per shader program shipped in the repository. -/

/-- Opaque tokens for the shader source strings of the built-in themes. -/
inductive ShaderSrc where
  | domainWarpingVertex
  | domainWarpingFragment
  | tennisVertex
  | tennisFragment
  deriving DecidableEq, Repr

/-- A shader uniform value: `number | number[]` (typed buffers do not occur
in the built-in themes). -/
inductive UniformValue where
  | num (v : ℚ)
  | vec (vs : List ℚ)
  deriving DecidableEq, Repr

/-- One entry of `ShaderUniforms`: `{ value, type? }`. -/
structure Uniform where
  value : UniformValue
  type : Option String
  deriving DecidableEq, Repr

/-- `ThemeShaders` from `types.ts`. -/
structure ThemeShaders where
  vertex : ShaderSrc
  fragment : ShaderSrc
  uniforms : Option (List (String × Uniform))
  deriving DecidableEq, Repr

/-- `ThemeColors` from `types.ts`: twelve named hex color strings. -/
structure ThemeColors where
  background : String
  backgroundAlt : String
  surface : String
  surfaceHover : String
  text : String
  textMuted : String
  textInverse : String
  accent : String
  accentHover : String
  accentMuted : String
  border : String
  borderMuted : String
  deriving DecidableEq, Repr

/-- `ThemeConfig` from `types.ts`. -/
structure ThemeConfig where
  id : String
  name : String
  description : String
  previewColor : String
  isDark : Bool
  deriving DecidableEq, Repr

/-- `Theme` from `types.ts`. -/
structure Theme where
  config : ThemeConfig
  colors : ThemeColors
  shaders : Option ThemeShaders
  styles : Option String
  deriving DecidableEq, Repr

/-- `ShaderColors` from `types.ts`. -/
structure ShaderColors where
  base : RGB
  lifted : RGB
  accent1 : RGB
  accent2 : RGB
  accent3 : RGB
  deriving DecidableEq, Repr

/-- `Object.entries` on a `ThemeColors` literal: the twelve key/value pairs
in declaration order. -/
def themeColorsEntries (c : ThemeColors) : List (String × String) :=
  [("background", c.background), ("backgroundAlt", c.backgroundAlt),
   ("surface", c.surface), ("surfaceHover", c.surfaceHover),
   ("text", c.text), ("textMuted", c.textMuted),
   ("textInverse", c.textInverse), ("accent", c.accent),
   ("accentHover", c.accentHover), ("accentMuted", c.accentMuted),
   ("border", c.border), ("borderMuted", c.borderMuted)]

/-! ## The DOM and storage state

`applyTheme` mutates the document (CSS custom properties on `:root`, the
injected style element, the `dark` class, the `data-theme` attribute),
`localStorage`, and dispatches `theme:change` events on `window`.  All of
that observable state is collected in one record.  `storageOk = false`
models a `localStorage` that throws on access. -/

/-- The payload of the `theme:change` `CustomEvent` dispatched by
`dispatchThemeChange`. -/
structure ThemeChangeEvent where
  themeId : String
  colors : ShaderColors
  isDark : Bool
  deriving DecidableEq, Repr

/-- Observable DOM, storage and event state. -/
structure DomState where
  cssVars : String → Option String
  styleEl : Option String
  darkClass : Bool
  dataTheme : Option String
  storageOk : Bool
  stored : String → Option String
  events : List ThemeChangeEvent

/-- `root.style.setProperty(k, v)` on the map of custom properties. -/
def setProp (m : String → Option String) (k v : String) :
    String → Option String :=
  fun k' => if k' = k then some v else m k'

/-- `localStorage.setItem`, which throws when storage is unavailable. -/
def lsSetItem (s : DomState) (k v : String) : Except Unit DomState :=
  if s.storageOk then
    .ok { s with stored := fun k' => if k' = k then some v else s.stored k' }
  else .error ()

/-- `localStorage.getItem`, which throws when storage is unavailable. -/
def lsGetItem (s : DomState) (k : String) : Except Unit (Option String) :=
  if s.storageOk then .ok (s.stored k) else .error ()

/-! ## Theme runtime utilities (`src/themes/utils.ts`) -/

/-- `camelToKebab`: `str.replace(/([a-z0-9])([A-Z])/g, '$1-$2').toLowerCase()`.
The global regex consumes both characters of each match, so scanning
resumes after the inserted pair. -/
def camelToKebabAux : List Char → List Char
  | [] => []
  | [a] => [a]
  | a :: b :: rest =>
      if (a.isLower || a.isDigit) && b.isUpper then
        a :: '-' :: b :: camelToKebabAux rest
      else
        a :: camelToKebabAux (b :: rest)

/-- `camelToKebab` on strings (hyphenation pass, then `toLowerCase`). -/
def camelToKebab (str : String) : String :=
  ⟨(camelToKebabAux str.data).map Char.toLower⟩

/-- `applyThemeColors(colors)`: write every `Object.entries` pair as the
CSS custom property `--theme-` + kebab-cased key (`CSS_VAR_PREFIX` is the
constant `'--theme-'`). -/
def applyThemeColors (colors : ThemeColors) (s : DomState) : DomState :=
  (themeColorsEntries colors).foldl
    (fun st kv =>
      { st with cssVars := setProp st.cssVars ("--theme-" ++ camelToKebab kv.1) kv.2 })
    s

/-- `applyThemeStyles(styles, themeId)`: remove any existing `theme-styles`
element; if `styles` is falsy (absent or the empty string) stop, otherwise
inject a fresh style element with the given content.  (The `themeId`
parameter is unused in the source as well.) -/
def applyThemeStyles (styles : Option String) (themeId : String)
    (s : DomState) : DomState :=
  let s1 := { s with styleEl := none }
  match styles with
  | none => s1
  | some css => if css = "" then s1 else { s1 with styleEl := some css }

/-- `setDarkMode(isDark)`: `classList.toggle('dark', isDark)` forces the
presence of the class to `isDark`. -/
def setDarkMode (isDark : Bool) (s : DomState) : DomState :=
  { s with darkClass := isDark }

/-- `saveThemePreference(themeId)`: `setItem` wrapped in `try`/`catch`
with an empty handler. -/
def saveThemePreference (themeId : String) (s : DomState) : DomState :=
  match lsSetItem s THEME_STORAGE_KEY themeId with
  | .ok s' => s'
  | .error _ => s

/-- `loadThemePreference()`: `getItem` wrapped in `try`/`catch` returning
`null` on failure. -/
def loadThemePreference (s : DomState) : Option String :=
  match lsGetItem s THEME_STORAGE_KEY with
  | .ok v => v
  | .error _ => none

/-- `themeColorsToShaderColors(colors)`. -/
def themeColorsToShaderColors (colors : ThemeColors) : ShaderColors :=
  { base := hexToRgb colors.background
    lifted := hexToRgb colors.surface
    accent1 := hexToRgb colors.accent
    accent2 := hexToRgb colors.accentHover
    accent3 := hexToRgb colors.accentMuted }

/-- The `theme:change` event payload built by `dispatchThemeChange`. -/
def mkThemeChangeEvent (theme : Theme) : ThemeChangeEvent :=
  { themeId := theme.config.id
    colors := themeColorsToShaderColors theme.colors
    isDark := theme.config.isDark }

/-- `dispatchThemeChange(theme)`: synchronous dispatch appends the event to
the observed event sequence. -/
def dispatchThemeChange (theme : Theme) (s : DomState) : DomState :=
  { s with events := s.events ++ [mkThemeChangeEvent theme] }

/-- `applyTheme(theme)`: the six steps in source order, ending with
`document.documentElement.dataset.theme = theme.config.id`. -/
def applyTheme (theme : Theme) (s : DomState) : DomState :=
  let s1 := applyThemeColors theme.colors s
  let s2 := applyThemeStyles theme.styles theme.config.id s1
  let s3 := setDarkMode theme.config.isDark s2
  let s4 := saveThemePreference theme.config.id s3
  let s5 := dispatchThemeChange theme s4
  { s5 with dataTheme := some theme.config.id }

/-! ## The effect trace of `applyTheme`

To state ordering properties ("CSS custom properties are written before
the notification fires"), the primitive DOM operations performed by
`applyTheme` are also listed explicitly, in source order, and `applyTheme`
is proved equal to replaying this trace. -/

/-- One primitive observable DOM/storage operation. -/
inductive DomEffect where
  | setCssVar (name value : String)
  | clearStyle
  | setStyle (css : String)
  | setDark (isDark : Bool)
  | persist (themeId : String)
  | dispatch (ev : ThemeChangeEvent)
  | setDataTheme (themeId : String)
  deriving DecidableEq, Repr

/-- Replay one primitive effect on the DOM state. -/
def runEffect (s : DomState) : DomEffect → DomState
  | .setCssVar n v => { s with cssVars := setProp s.cssVars n v }
  | .clearStyle => { s with styleEl := none }
  | .setStyle css => { s with styleEl := some css }
  | .setDark b => { s with darkClass := b }
  | .persist id => saveThemePreference id s
  | .dispatch ev => { s with events := s.events ++ [ev] }
  | .setDataTheme id => { s with dataTheme := some id }

/-- Replay a list of primitive effects in order. -/
def replayEffects (es : List DomEffect) (s : DomState) : DomState :=
  es.foldl runEffect s

/-- The primitive operations of `applyTheme(theme)` in source order. -/
def applyThemeTrace (theme : Theme) : List DomEffect :=
  (themeColorsEntries theme.colors).map
    (fun kv => .setCssVar ("--theme-" ++ camelToKebab kv.1) kv.2) ++
  [DomEffect.clearStyle] ++
  (match theme.styles with
   | none => []
   | some css => if css = "" then [] else [DomEffect.setStyle css]) ++
  [DomEffect.setDark theme.config.isDark,
   DomEffect.persist theme.config.id,
   DomEffect.dispatch (mkThemeChangeEvent theme),
   DomEffect.setDataTheme theme.config.id]

/-! ## Built-in themes

`domain-warping` (config from `domain-warping/config.ts`, colors from
`domain-warping/colors.ts`) and `tennis` (config from `tennis/config.ts`,
colors from `tennis/colors.ts`). -/

/-- `domainWarpingTheme` from `src/themes/domain-warping/index.ts`. -/
def domainWarpingTheme : Theme :=
  { config :=
      { id := "domain-warping"
        name := "Flow"
        description := "Organic paint-like flow effect with cascading domain warping"
        previewColor := "#bf479b"
        isDark := true }
    colors :=
      { background := "#1f391e"
        backgroundAlt := "#154a38"
        surface := "#461f1d"
        surfaceHover := "#6b3038"
        text := "#f5f0f2"
        textMuted := "#c991cc"
        textInverse := "#1f391e"
        accent := "#bf479b"
        accentHover := "#c9769b"
        accentMuted := "#7c59b0"
        border := "#6b3038"
        borderMuted := "#461f1d" }
    shaders := some
      { vertex := .domainWarpingVertex
        fragment := .domainWarpingFragment
        uniforms := some
          [("u_time", { value := .num 0, type := some "float" }),
           ("u_resolution", { value := .vec [1920, 1080], type := some "vec2" }),
           ("u_opacity", { value := .num 1, type := some "float" }),
           ("u_colorTheme", { value := .num 0, type := some "float" })] }
    styles := none }

/-- `tennisTheme` from `src/themes/tennis/index.ts`. -/
def tennisTheme : Theme :=
  { config :=
      { id := "tennis"
        name := "Tennis"
        description := "Tennis court inspired theme"
        previewColor := "#000000"
        isDark := true }
    colors :=
      { background := "#0a0a08"
        backgroundAlt := "#121210"
        surface := "#161614"
        surfaceHover := "#1e1e1a"
        text := "#f5f5f0"
        textMuted := "#8a8a80"
        textInverse := "#0a0a08"
        accent := "#ccff00"
        accentHover := "#e0ff4d"
        accentMuted := "#99bf00"
        border := "#2a2a26"
        borderMuted := "#1e1e1a" }
    shaders := some
      { vertex := .tennisVertex
        fragment := .tennisFragment
        uniforms := some
          [("u_time", { value := .num 0, type := some "float" }),
           ("u_resolution", { value := .vec [1920, 1080], type := some "vec2" }),
           ("u_opacity", { value := .num 1, type := some "float" })] }
    styles := none }

/-! ## Theme registry (`src/themes/index.ts`)

The `Map<string, Theme>` is modelled as an association list with JS `Map`
semantics: `set` on an existing key updates the entry in place, otherwise
appends; iteration order is insertion order.  `allThemes` is computed once
from the initial registry at module load, so it is carried as a separate
snapshot field that no registry operation touches. -/

/-- `Map.prototype.get`. -/
def mapGet (m : List (String × Theme)) (id : String) : Option Theme :=
  (m.find? (fun p => p.1 = id)).map (fun p => p.2)

/-- `Map.prototype.set`: update in place if the key exists, else append. -/
def mapSet (m : List (String × Theme)) (id : String) (t : Theme) :
    List (String × Theme) :=
  if m.any (fun p => p.1 = id) then
    m.map (fun p => if p.1 = id then (id, t) else p)
  else m ++ [(id, t)]

/-- The initial registry contents:
`new Map([['domain-warping', domainWarpingTheme], ['tennis', tennisTheme]])`. -/
def themesInit : List (String × Theme) :=
  [("domain-warping", domainWarpingTheme), ("tennis", tennisTheme)]

/-- The whole module-level state: the mutable registry, the `allThemes`
snapshot taken at module load, and the DOM/storage state. -/
structure SysState where
  themes : List (String × Theme)
  allThemes : List Theme
  dom : DomState

/-- A pristine ambient DOM: no custom properties, no style element, no
dark class, no data attribute, working storage with nothing stored, no
events dispatched yet. -/
def emptyDom : DomState :=
  { cssVars := fun _ => none
    styleEl := none
    darkClass := false
    dataTheme := none
    storageOk := true
    stored := fun _ => none
    events := [] }

/-- A minimal well-typed theme whose id is the empty string, as
`registerTheme` accepts; used to probe the truthiness test in
`initializeTheme`. -/
def blankTheme : Theme :=
  { config :=
      { id := "", name := "", description := "", previewColor := ""
        isDark := false }
    colors :=
      { background := "", backgroundAlt := "", surface := ""
        surfaceHover := "", text := "", textMuted := "", textInverse := ""
        accent := "", accentHover := "", accentMuted := "", border := ""
        borderMuted := "" }
    shaders := none
    styles := none }

/-- Module load with ambient DOM/storage state `d`: the registry holds the
two built-ins and `allThemes = Array.from(themes.values())`. -/
def initState (d : DomState) : SysState :=
  { themes := themesInit
    allThemes := themesInit.map (fun p => p.2)
    dom := d }

/-- `getTheme(id)`. -/
def getTheme (id : String) (s : SysState) : Option Theme :=
  mapGet s.themes id

/-- `getDefaultTheme()`: `themes.get(DEFAULT_THEME_ID) ?? domainWarpingTheme`. -/
def getDefaultTheme (s : SysState) : Theme :=
  (mapGet s.themes DEFAULT_THEME_ID).getD domainWarpingTheme

/-- `setTheme(id)`: look the theme up; if absent return `false` with no
side effect, else apply it and return `true`. -/
def setTheme (id : String) (s : SysState) : Bool × SysState :=
  match mapGet s.themes id with
  | none => (false, s)
  | some theme => (true, { s with dom := applyTheme theme s.dom })

/-- `initializeTheme()`.  Note the truthiness test `savedId ?` of the
source: both `null` and the empty string fall back to the default. -/
def initializeTheme (s : SysState) : Theme × SysState :=
  let savedId := loadThemePreference s.dom
  let theme := match savedId with
    | some id => if id = "" then none else getTheme id s
    | none => none
  let activeTheme := theme.getD (getDefaultTheme s)
  (activeTheme, { s with dom := applyTheme activeTheme s.dom })

/-- `registerTheme(theme)`: `themes.set(theme.config.id, theme)`. -/
def registerTheme (theme : Theme) (s : SysState) : SysState :=
  { s with themes := mapSet s.themes theme.config.id theme }

/-- `hasTheme(id)`. -/
def hasTheme (id : String) (s : SysState) : Bool :=
  s.themes.any (fun p => p.1 = id)

/-- `getThemeIds()`: registration order. -/
def getThemeIds (s : SysState) : List String :=
  s.themes.map (fun p => p.1)

/-- The state-mutating operations of the registry subsystem, for stating
invariants over arbitrary operation sequences. -/
inductive RegistryOp where
  | register (t : Theme)
  | set (id : String)
  | init

/-- Run one registry operation. -/
def runOp (s : SysState) : RegistryOp → SysState
  | .register t => registerTheme t s
  | .set id => (setTheme id s).2
  | .init => (initializeTheme s).2

/-- Run a sequence of registry operations from module load. -/
def runOps (d : DomState) (ops : List RegistryOp) : SysState :=
  ops.foldl runOp (initState d)

/-! ## Facts about the hex conversions -/

/-- The two-character hex rendering of a byte, as produced by
`toString(16).padStart(2, '0')` on a value below 256. -/
def hexBytePair (k : Nat) : List Char :=
  (padStart2 ⟨Nat.toDigits 16 k⟩).data

/-- The value parsed back from a two-character hex pair. -/
def pairVal : List Char → Nat
  | [a, b] => hexDigitVal a * 16 + hexDigitVal b
  | _ => 0

/-- A well-formed 6-digit hex color: an optional leading `#` followed by
exactly six hex digits (stated structurally, following the spec's words
"with or without a leading `#`"). -/
def wellFormedHex6 (cs : List Char) : Prop :=
  ∃ ds : List Char,
    (cs = ds ∨ cs = '#' :: ds) ∧ ds.length = 6 ∧ ds.all isHexDigitJs = true

set_option maxRecDepth 4000 in
theorem hexBytePair_spec : ∀ k < 256,
    (hexBytePair k).length = 2 ∧ (hexBytePair k).all isHexDigitJs = true ∧
    pairVal (hexBytePair k) = k := by decide

theorem jsRound_le (q : ℚ) : (jsRound q : ℚ) ≤ q + 1/2 := Int.floor_le _

theorem lt_jsRound (q : ℚ) : q - 1/2 < jsRound q := by
  have h := Int.lt_floor_add_one (q + 1/2)
  unfold jsRound
  linarith

theorem jsRound_byte_bounds {r : ℚ} (h0 : 0 ≤ r) (h1 : r ≤ 1) :
    0 ≤ jsRound (r * 255) ∧ jsRound (r * 255) ≤ 255 := by
  constructor
  · exact Int.le_floor.mpr (by push_cast; nlinarith)
  · have h : jsRound (r * 255) ≤ ⌊(255 + 1/2 : ℚ)⌋ :=
      Int.floor_le_floor (by nlinarith)
    have h255 : ⌊(255 + 1/2 : ℚ)⌋ = 255 := by norm_num
    omega

/-- For a channel in `[0, 1]` the inner `toHex` produces the two-character
hex pair of the rounded byte. -/
theorem toHex_data {r : ℚ} (h0 : 0 ≤ r) (h1 : r ≤ 1) :
    (toHex r).data = hexBytePair (jsRound (r * 255)).toNat := by
  obtain ⟨hge, _⟩ := jsRound_byte_bounds h0 h1
  unfold toHex jsIntToHexStr hexBytePair
  rw [if_neg (by omega)]

theorem jsRound_byte_lt {r : ℚ} (h0 : 0 ≤ r) (h1 : r ≤ 1) :
    (jsRound (r * 255)).toNat < 256 := by
  obtain ⟨hge, hle⟩ := jsRound_byte_bounds h0 h1
  omega

/-- Parsing `#` followed by three well-formed hex byte pairs recovers the
three byte values. -/
theorem hexMatch_pairs {k1 k2 k3 : Nat} (h1 : k1 < 256) (h2 : k2 < 256)
    (h3 : k3 < 256) :
    hexMatch ('#' :: (hexBytePair k1 ++ hexBytePair k2 ++ hexBytePair k3)) =
      some (k1, k2, k3) := by
  obtain ⟨l1, d1, v1⟩ := hexBytePair_spec k1 h1
  obtain ⟨l2, d2, v2⟩ := hexBytePair_spec k2 h2
  obtain ⟨l3, d3, v3⟩ := hexBytePair_spec k3 h3
  obtain ⟨a1, b1, e1⟩ := List.length_eq_two.mp l1
  obtain ⟨a2, b2, e2⟩ := List.length_eq_two.mp l2
  obtain ⟨a3, b3, e3⟩ := List.length_eq_two.mp l3
  rw [e1] at d1 v1; rw [e2] at d2 v2; rw [e3] at d3 v3
  simp only [List.all_cons, List.all_nil, Bool.and_true, Bool.and_eq_true] at d1 d2 d3
  simp only [pairVal] at v1 v2 v3
  rw [e1, e2, e3]
  simp only [List.cons_append, List.nil_append, hexMatch, stripHash,
    d1.1, d1.2, d2.1, d2.2, d3.1, d3.2, Bool.and_self, if_true]
  rw [v1, v2, v3]

/-- For channels in `[0, 1]`, the characters of `rgbToHex` are `#`
followed by the three hex byte pairs of the rounded channels. -/
theorem rgbToHex_data {r g b : ℚ} (hr0 : 0 ≤ r) (hr1 : r ≤ 1)
    (hg0 : 0 ≤ g) (hg1 : g ≤ 1) (hb0 : 0 ≤ b) (hb1 : b ≤ 1) :
    (rgbToHex r g b).data =
      '#' :: (hexBytePair (jsRound (r * 255)).toNat ++
              hexBytePair (jsRound (g * 255)).toNat ++
              hexBytePair (jsRound (b * 255)).toNat) := by
  show ("#" ++ toHex r ++ toHex g ++ toHex b).data = _
  rw [String.data_append, String.data_append, String.data_append,
    toHex_data hr0 hr1, toHex_data hg0 hg1, toHex_data hb0 hb1]
  simp [List.append_assoc]

/-- For channels in `[0, 1]`, the round trip recovers exactly the rounded
bytes divided by 255. -/
theorem hexToRgb_rgbToHex_eq {r g b : ℚ} (hr0 : 0 ≤ r) (hr1 : r ≤ 1)
    (hg0 : 0 ≤ g) (hg1 : g ≤ 1) (hb0 : 0 ≤ b) (hb1 : b ≤ 1) :
    hexToRgb (rgbToHex r g b) =
      (((jsRound (r * 255)).toNat : ℚ) / 255,
       ((jsRound (g * 255)).toNat : ℚ) / 255,
       ((jsRound (b * 255)).toNat : ℚ) / 255) := by
  unfold hexToRgb
  rw [rgbToHex_data hr0 hr1 hg0 hg1 hb0 hb1,
    hexMatch_pairs (jsRound_byte_lt hr0 hr1) (jsRound_byte_lt hg0 hg1)
    (jsRound_byte_lt hb0 hb1)]

/-- The rounded byte divided by 255 is within `1/255` of the channel. -/
theorem byte_bound {r : ℚ} (h0 : 0 ≤ r) (h1 : r ≤ 1) :
    |((jsRound (r * 255)).toNat : ℚ) / 255 - r| ≤ 1/255 := by
  obtain ⟨hge, _⟩ := jsRound_byte_bounds h0 h1
  have hcast : (((jsRound (r * 255)).toNat : ℚ)) = ((jsRound (r * 255) : ℤ) : ℚ) := by
    exact_mod_cast Int.toNat_of_nonneg hge
  rw [hcast, abs_le]
  have hu := jsRound_le (r * 255)
  have hl := lt_jsRound (r * 255)
  constructor <;> linarith

/-! ## Well-formedness of hex color strings -/

theorem char_le_toNat {a b : Char} (h : a ≤ b) : a.toNat ≤ b.toNat :=
  Char.le_def.mp h

theorem hexDigitVal_le {c : Char} (h : isHexDigitJs c = true) :
    hexDigitVal c ≤ 15 := by
  have h48 : '0'.toNat = 48 := rfl
  have h97 : 'a'.toNat = 97 := rfl
  have h102 : 'f'.toNat = 102 := rfl
  have h65 : 'A'.toNat = 65 := rfl
  have h70 : 'F'.toNat = 70 := rfl
  unfold isHexDigitJs at h
  simp only [Bool.or_eq_true, Bool.and_eq_true, decide_eq_true_eq] at h
  unfold hexDigitVal
  by_cases hd : c.isDigit = true
  · rw [if_pos hd]
    unfold Char.isDigit at hd
    simp only [Bool.and_eq_true, decide_eq_true_eq] at hd
    have h57 : c.toNat ≤ (57 : UInt32).toNat := hd.2
    have : (57 : UInt32).toNat = 57 := rfl
    omega
  · rw [if_neg hd]
    rcases h with (hdig | ⟨ha, hf⟩) | ⟨hA, hF⟩
    · exact absurd hdig hd
    · rw [if_pos ha]
      have := char_le_toNat hf
      omega
    · have hFn := char_le_toNat hF
      by_cases hau : 'a' ≤ c
      · have := char_le_toNat hau
        omega
      · rw [if_neg hau]
        have := char_le_toNat hA
        omega

theorem isHexDigitJs_ne_hash {c : Char} (h : isHexDigitJs c = true) :
    c ≠ '#' := by
  intro hc
  rw [hc] at h
  exact absurd h (by decide)

/-- `hexMatch` succeeds exactly on well-formed 6-digit hex colors. -/
theorem hexMatch_isSome_iff (cs : List Char) :
    (hexMatch cs).isSome = true ↔ wellFormedHex6 cs := by
  constructor
  · intro h
    unfold hexMatch at h
    split at h
    · next c1 c2 c3 c4 c5 c6 heq =>
      split at h
      · next hall =>
        refine ⟨stripHash cs, ?_, by rw [heq]; rfl, by
          rw [heq]
          simp only [Bool.and_eq_true] at hall
          simp [List.all_cons, hall.1, hall.2]⟩
        cases cs with
        | nil => left; rfl
        | cons c rest =>
          simp only [stripHash]
          by_cases hc : c = '#'
          · subst hc; right; rw [if_pos rfl]
          · left; rw [if_neg hc]
      · exact absurd h (by simp)
    · exact absurd h (by simp)
  · rintro ⟨ds, hcs, hlen, hall⟩
    have hstrip : stripHash cs = ds := by
      rcases hcs with hcs | hcs
      · rw [hcs]
        rcases ds with _ | ⟨c, rest⟩
        · simp at hlen
        · have hc : isHexDigitJs c = true := by
            simp only [List.all_cons, Bool.and_eq_true] at hall
            exact hall.1
          simp only [stripHash]
          rw [if_neg (isHexDigitJs_ne_hash hc)]
      · rw [hcs]
        simp [stripHash]
    rcases ds with _ | ⟨c1, _ | ⟨c2, _ | ⟨c3, _ | ⟨c4, _ | ⟨c5, _ | ⟨c6, rest⟩⟩⟩⟩⟩⟩ <;>
      simp only [List.length_cons, List.length_nil] at hlen <;> try omega
    have hr : rest.length = 0 := by omega
    obtain rfl := List.eq_nil_of_length_eq_zero hr
    simp only [List.all_cons, List.all_nil, Bool.and_eq_true, Bool.and_true] at hall
    unfold hexMatch
    rw [hstrip]
    simp [hall.1, hall.2.1, hall.2.2.1, hall.2.2.2.1, hall.2.2.2.2.1,
      hall.2.2.2.2.2]

/-- Bounds on a successful `hexMatch`: each byte is at most 255. -/
theorem hexMatch_le {cs : List Char} {a b c : Nat}
    (h : hexMatch cs = some (a, b, c)) : a ≤ 255 ∧ b ≤ 255 ∧ c ≤ 255 := by
  unfold hexMatch at h
  split at h
  · next c1 c2 c3 c4 c5 c6 heq =>
    split at h
    · next hall =>
      simp only [Bool.and_eq_true] at hall
      obtain ⟨⟨⟨⟨⟨h1, h2⟩, h3⟩, h4⟩, h5⟩, h6⟩ := hall
      have v1 := hexDigitVal_le h1
      have v2 := hexDigitVal_le h2
      have v3 := hexDigitVal_le h3
      have v4 := hexDigitVal_le h4
      have v5 := hexDigitVal_le h5
      have v6 := hexDigitVal_le h6
      simp only [Option.some.injEq, Prod.mk.injEq] at h
      obtain ⟨rfl, rfl, rfl⟩ := h
      omega
    · exact absurd h (by simp)
  · exact absurd h (by simp)

/-- A failed `hexMatch` returns `none` exactly on malformed strings. -/
theorem hexMatch_eq_none {cs : List Char} (h : ¬ wellFormedHex6 cs) :
    hexMatch cs = none := by
  rcases hm : hexMatch cs with _ | v
  · rfl
  · exact absurd ((hexMatch_isSome_iff cs).mp (by rw [hm]; rfl)) h


/-! ## Facts about `clamp` and `smoothstep` -/

theorem clamp01_nonneg (v : ℚ) : 0 ≤ clamp v 0 1 :=
  le_min (le_max_right v 0) zero_le_one

theorem clamp01_le_one (v : ℚ) : clamp v 0 1 ≤ 1 :=
  min_le_right _ 1

theorem clamp01_mono {u v : ℚ} (h : u ≤ v) : clamp u 0 1 ≤ clamp v 0 1 :=
  min_le_min (max_le_max h le_rfl) le_rfl

/-- The cubic Hermite polynomial is monotone on `[0, 1]`. -/
theorem hermite_mono {a b : ℚ} (h0 : 0 ≤ a) (hab : a ≤ b) (h1 : b ≤ 1) :
    hermite a ≤ hermite b := by
  have t1 : 0 ≤ (b - a) * (a * (1 - a)) :=
    mul_nonneg (by linarith) (mul_nonneg h0 (by linarith))
  have t2 : 0 ≤ (b - a) * (b * (1 - b)) :=
    mul_nonneg (by linarith) (mul_nonneg (by linarith) (by linarith))
  have t3 : 0 ≤ (b - a) * (a * (1 - b)) :=
    mul_nonneg (by linarith) (mul_nonneg h0 (by linarith))
  have t4 : 0 ≤ (b - a) * (b * (1 - a)) :=
    mul_nonneg (by linarith) (mul_nonneg (by linarith) (by linarith))
  unfold hermite
  nlinarith [t1, t2, t3, t4]

theorem smoothstep_eq_hermite (e0 e1 x : ℚ) :
    smoothstep e0 e1 x = hermite (clamp ((x - e0) / (e1 - e0)) 0 1) := rfl

/-- With `edge0 < edge1`, `smoothstep` is monotone non-decreasing in `x`,
is 0 at or below `edge0`, is 1 at or above `edge1`, and is the cubic
Hermite `t² (3 − 2 t)` of the clamped normalized position. -/
theorem smoothstep_spec (e0 e1 : ℚ) (h : e0 < e1) :
    (∀ x y, x ≤ y → smoothstep e0 e1 x ≤ smoothstep e0 e1 y) ∧
    (∀ x, x ≤ e0 → smoothstep e0 e1 x = 0) ∧
    (∀ x, e1 ≤ x → smoothstep e0 e1 x = 1) ∧
    (∀ x, smoothstep e0 e1 x = hermite (clamp ((x - e0) / (e1 - e0)) 0 1)) := by
  have hpos : 0 < e1 - e0 := by linarith
  refine ⟨?_, ?_, ?_, fun x => rfl⟩
  · intro x y hxy
    have ht : (x - e0) / (e1 - e0) ≤ (y - e0) / (e1 - e0) :=
      (div_le_div_right hpos).mpr (by linarith)
    rw [smoothstep_eq_hermite, smoothstep_eq_hermite]
    exact hermite_mono (clamp01_nonneg _) (clamp01_mono ht) (clamp01_le_one _)
  · intro x hx
    have ht : (x - e0) / (e1 - e0) ≤ 0 := (div_le_iff hpos).mpr (by nlinarith)
    rw [smoothstep_eq_hermite]
    unfold clamp
    rw [max_eq_right ht, min_eq_left zero_le_one]
    unfold hermite; ring
  · intro x hx
    have h1t : (1 : ℚ) ≤ (x - e0) / (e1 - e0) := (one_le_div hpos).mpr (by linarith)
    have h0t : (0 : ℚ) ≤ (x - e0) / (e1 - e0) := le_trans zero_le_one h1t
    rw [smoothstep_eq_hermite]
    unfold clamp
    rw [max_eq_left h0t, min_eq_right h1t]
    unfold hermite; ring

/-- Witness: `smoothstep 0 1` at concrete points, through `smoothstep_spec`. -/
theorem smoothstep_spec_w :
    smoothstep 0 1 (-1) = 0 ∧ smoothstep 0 1 2 = 1 ∧
    smoothstep 0 1 0 ≤ smoothstep 0 1 1 :=
  ⟨(smoothstep_spec 0 1 zero_lt_one).2.1 (-1) (neg_nonpos.mpr zero_le_one),
   (smoothstep_spec 0 1 zero_lt_one).2.2.1 2 one_le_two,
   (smoothstep_spec 0 1 zero_lt_one).1 0 1 zero_le_one⟩

/-! ## Facts about the apply routine -/

/-- `applyThemeColors` changes only the CSS custom properties. -/
theorem applyThemeColors_frame (c : ThemeColors) (s : DomState) :
    applyThemeColors c s =
      { s with cssVars := (applyThemeColors c s).cssVars } := by
  simp [applyThemeColors, themeColorsEntries]

/-- Projections of `applyTheme`, and its CSS map. -/
theorem applyTheme_proj (t : Theme) (s : DomState) :
    (applyTheme t s).darkClass = t.config.isDark ∧
    (applyTheme t s).dataTheme = some t.config.id ∧
    (applyTheme t s).events = s.events ++ [mkThemeChangeEvent t] ∧
    (applyTheme t s).storageOk = s.storageOk ∧
    (applyTheme t s).cssVars = (applyThemeColors t.colors s).cssVars := by
  unfold applyTheme
  rw [applyThemeColors_frame]
  unfold applyThemeStyles setDarkMode saveThemePreference lsSetItem
    dispatchThemeChange
  rcases t.styles with _ | css <;> by_cases h : s.storageOk <;>
    simp [h] <;> by_cases hcss : css = "" <;> simp [hcss]

/-- The twelve CSS custom property names produced by `camelToKebab`. -/
theorem cssVarNames :
    "--theme-" ++ camelToKebab "background" = "--theme-background" ∧
    "--theme-" ++ camelToKebab "backgroundAlt" = "--theme-background-alt" ∧
    "--theme-" ++ camelToKebab "surface" = "--theme-surface" ∧
    "--theme-" ++ camelToKebab "surfaceHover" = "--theme-surface-hover" ∧
    "--theme-" ++ camelToKebab "text" = "--theme-text" ∧
    "--theme-" ++ camelToKebab "textMuted" = "--theme-text-muted" ∧
    "--theme-" ++ camelToKebab "textInverse" = "--theme-text-inverse" ∧
    "--theme-" ++ camelToKebab "accent" = "--theme-accent" ∧
    "--theme-" ++ camelToKebab "accentHover" = "--theme-accent-hover" ∧
    "--theme-" ++ camelToKebab "accentMuted" = "--theme-accent-muted" ∧
    "--theme-" ++ camelToKebab "border" = "--theme-border" ∧
    "--theme-" ++ camelToKebab "borderMuted" = "--theme-border-muted" := by
  decide

/-- Every `ThemeColors` entry ends up readable under its CSS variable
name after `applyThemeColors`. -/
theorem applyThemeColors_cssVars (c : ThemeColors) (s : DomState) :
    ∀ kv ∈ themeColorsEntries c,
      (applyThemeColors c s).cssVars ("--theme-" ++ camelToKebab kv.1) =
        some kv.2 := by
  obtain ⟨n1, n2, n3, n4, n5, n6, n7, n8, n9, n10, n11, n12⟩ := cssVarNames
  intro kv hkv
  simp only [themeColorsEntries, List.mem_cons, List.not_mem_nil, or_false] at hkv
  rcases hkv with rfl | rfl | rfl | rfl | rfl | rfl | rfl | rfl | rfl | rfl | rfl | rfl <;>
    simp [applyThemeColors, themeColorsEntries, setProp,
      n1, n2, n3, n4, n5, n6, n7, n8, n9, n10, n11, n12]

/-- `applyTheme` is the replay of its effect trace. -/
theorem applyTheme_eq_replay (t : Theme) (s : DomState) :
    applyTheme t s = replayEffects (applyThemeTrace t) s := by
  unfold applyTheme applyThemeTrace replayEffects
  rw [List.foldl_append, List.foldl_append, List.foldl_append,
    List.foldl_map]
  have hcolors :
      (themeColorsEntries t.colors).foldl
        (fun acc kv =>
          runEffect acc (.setCssVar ("--theme-" ++ camelToKebab kv.1) kv.2)) s =
      applyThemeColors t.colors s := rfl
  rw [hcolors]
  rcases hst : t.styles with _ | css
  · simp [applyThemeStyles, runEffect, setDarkMode, dispatchThemeChange]
  · by_cases hcss : css = "" <;>
      simp [applyThemeStyles, runEffect, setDarkMode, dispatchThemeChange, hcss]

/-- In the effect trace, the single dispatch comes after every CSS custom
property write: the trace splits as `pre ++ dispatch :: post` with no
dispatch in `pre` or `post` and every `setCssVar` in `pre`. -/
theorem applyThemeTrace_order (t : Theme) :
    ∃ pre post,
      applyThemeTrace t = pre ++ DomEffect.dispatch (mkThemeChangeEvent t) :: post ∧
      (∀ e ∈ pre, ∀ ev, e ≠ DomEffect.dispatch ev) ∧
      (∀ e ∈ post, ∀ ev, e ≠ DomEffect.dispatch ev) ∧
      (∀ kv ∈ themeColorsEntries t.colors,
        DomEffect.setCssVar ("--theme-" ++ camelToKebab kv.1) kv.2 ∈ pre) := by
  refine ⟨(themeColorsEntries t.colors).map
      (fun kv => .setCssVar ("--theme-" ++ camelToKebab kv.1) kv.2) ++
    [DomEffect.clearStyle] ++
    (match t.styles with
     | none => []
     | some css => if css = "" then [] else [DomEffect.setStyle css]) ++
    [DomEffect.setDark t.config.isDark, DomEffect.persist t.config.id],
    [DomEffect.setDataTheme t.config.id], ?_, ?_, ?_, ?_⟩
  · unfold applyThemeTrace
    simp [List.append_assoc]
  · intro e he ev
    simp only [List.mem_append, List.mem_map, List.mem_singleton,
      List.mem_cons, List.not_mem_nil, or_false] at he
    rcases he with ((⟨kv, _, rfl⟩ | rfl) | he) | (rfl | rfl)
    · simp
    · simp
    · rcases hst : t.styles with _ | css
      · rw [hst] at he; simp at he
      · rw [hst] at he
        by_cases hcss : css = ""
        · simp [hcss] at he
        · simp [hcss] at he
          subst he; simp
    · simp
    · simp
  · intro e he ev
    simp only [List.mem_singleton] at he
    subst he; simp
  · intro kv hkv
    simp only [List.mem_append, List.mem_map]
    exact Or.inl (Or.inl (Or.inl ⟨kv, hkv, rfl⟩))

/-- C1: after `applyTheme(theme)`, every key of `theme.colors` is set as a
CSS custom property named `--theme-` + kebab-cased key holding exactly the
hex value; the dark-mode class equals `theme.config.isDark`; the
`data-theme` attribute equals `theme.config.id`; exactly one
`theme:change` event was dispatched, whose `colors` payload is the
channel-wise `hexToRgb` of `background`, `surface`, `accent`,
`accentHover`, `accentMuted` (as `base`, `lifted`, `accent1`, `accent2`,
`accent3`); and in the effect trace of `applyTheme` every CSS custom
property write precedes the single dispatch. -/
theorem applyTheme_spec (t : Theme) (s : DomState) :
    (∀ kv ∈ themeColorsEntries t.colors,
        (applyTheme t s).cssVars ("--theme-" ++ camelToKebab kv.1) = some kv.2) ∧
    (applyTheme t s).darkClass = t.config.isDark ∧
    (applyTheme t s).dataTheme = some t.config.id ∧
    (applyTheme t s).events = s.events ++
      [{ themeId := t.config.id
         colors :=
           { base := hexToRgb t.colors.background
             lifted := hexToRgb t.colors.surface
             accent1 := hexToRgb t.colors.accent
             accent2 := hexToRgb t.colors.accentHover
             accent3 := hexToRgb t.colors.accentMuted }
         isDark := t.config.isDark }] ∧
    applyTheme t s = replayEffects (applyThemeTrace t) s ∧
    (∃ pre post,
      applyThemeTrace t = pre ++ DomEffect.dispatch (mkThemeChangeEvent t) :: post ∧
      (∀ e ∈ pre, ∀ ev, e ≠ DomEffect.dispatch ev) ∧
      (∀ e ∈ post, ∀ ev, e ≠ DomEffect.dispatch ev) ∧
      (∀ kv ∈ themeColorsEntries t.colors,
        DomEffect.setCssVar ("--theme-" ++ camelToKebab kv.1) kv.2 ∈ pre)) := by
  obtain ⟨hdark, hdata, hev, _, hcss⟩ := applyTheme_proj t s
  refine ⟨?_, hdark, hdata, ?_, applyTheme_eq_replay t s, applyThemeTrace_order t⟩
  · intro kv hkv
    rw [hcss]
    exact applyThemeColors_cssVars t.colors s kv hkv
  · rw [hev]; rfl

/-- Witness for `applyTheme_spec`: applying the tennis theme to a pristine
document sets the accent CSS variable, the dark class, the data attribute,
and dispatches one event. -/
theorem applyTheme_spec_w :
    (applyTheme tennisTheme emptyDom).cssVars "--theme-accent" = some "#ccff00" ∧
    (applyTheme tennisTheme emptyDom).darkClass = true ∧
    (applyTheme tennisTheme emptyDom).dataTheme = some "tennis" ∧
    (applyTheme tennisTheme emptyDom).events.length = 1 := by
  have h := applyTheme_spec tennisTheme emptyDom
  refine ⟨?_, ?_, ?_, ?_⟩
  · have h1 := h.1 ("accent", "#ccff00") (by decide)
    have hn : "--theme-" ++ camelToKebab "accent" = "--theme-accent" := by decide
    rw [hn] at h1
    exact h1
  · rw [h.2.1]
    rfl
  · rw [h.2.2.1]
    rfl
  · rw [h.2.2.2.1]
    rfl

/-! ## Claim theorems for the color conversions -/

/-- C5: for all channels in `[0, 1]`, `hexToRgb(rgbToHex(r, g, b))`
returns channels each within `1/255` of the input. -/
theorem hexToRgb_rgbToHex_roundtrip (r g b : ℚ) (hr0 : 0 ≤ r) (hr1 : r ≤ 1)
    (hg0 : 0 ≤ g) (hg1 : g ≤ 1) (hb0 : 0 ≤ b) (hb1 : b ≤ 1) :
    |(hexToRgb (rgbToHex r g b)).1 - r| ≤ 1/255 ∧
    |(hexToRgb (rgbToHex r g b)).2.1 - g| ≤ 1/255 ∧
    |(hexToRgb (rgbToHex r g b)).2.2 - b| ≤ 1/255 := by
  rw [hexToRgb_rgbToHex_eq hr0 hr1 hg0 hg1 hb0 hb1]
  exact ⟨byte_bound hr0 hr1, byte_bound hg0 hg1, byte_bound hb0 hb1⟩

/-- Witness for `hexToRgb_rgbToHex_roundtrip` at `(1/2, 0, 1)`. -/
theorem hexToRgb_rgbToHex_roundtrip_w :
    |(hexToRgb (rgbToHex (1/2) 0 1)).1 - 1/2| ≤ 1/255 ∧
    |(hexToRgb (rgbToHex (1/2) 0 1)).2.1 - 0| ≤ 1/255 ∧
    |(hexToRgb (rgbToHex (1/2) 0 1)).2.2 - 1| ≤ 1/255 :=
  hexToRgb_rgbToHex_roundtrip (1/2) 0 1 one_half_pos.le one_half_lt_one.le
    le_rfl zero_le_one zero_le_one le_rfl

/-- Counterexample to C6 as stated: `rgbToHex` performs no clamping, so
the out-of-range channel 2 produces `"#1fe0000"`, which is not `#`
followed by exactly six hex digits. -/
theorem rgbToHex_no_clamp_cex :
    rgbToHex 2 0 0 = "#1fe0000" ∧ (rgbToHex 2 0 0).length ≠ 7 := by
  have h510 : jsRound ((2 : ℚ) * 255) = 510 := by unfold jsRound; norm_num
  have h0 : jsRound ((0 : ℚ) * 255) = 0 := by unfold jsRound; norm_num
  constructor
  · unfold rgbToHex toHex
    rw [h510, h0]
    decide
  · unfold rgbToHex toHex
    rw [h510, h0]
    decide

/-- C6 (amended): for channels in `[0, 1]`, `rgbToHex` rounds each channel
to the nearest byte and produces `#` followed by exactly six hex digits,
one byte per channel; out-of-range channels are not clamped. -/
theorem rgbToHex_spec (r g b : ℚ) (hr0 : 0 ≤ r) (hr1 : r ≤ 1)
    (hg0 : 0 ≤ g) (hg1 : g ≤ 1) (hb0 : 0 ≤ b) (hb1 : b ≤ 1) :
    (rgbToHex r g b).data.length = 7 ∧
    (rgbToHex r g b).data.head? = some '#' ∧
    (rgbToHex r g b).data.tail.all isHexDigitJs = true ∧
    hexMatch (rgbToHex r g b).data =
      some ((jsRound (r * 255)).toNat, (jsRound (g * 255)).toNat,
            (jsRound (b * 255)).toNat) := by
  obtain ⟨l1, d1, -⟩ := hexBytePair_spec _ (jsRound_byte_lt hr0 hr1)
  obtain ⟨l2, d2, -⟩ := hexBytePair_spec _ (jsRound_byte_lt hg0 hg1)
  obtain ⟨l3, d3, -⟩ := hexBytePair_spec _ (jsRound_byte_lt hb0 hb1)
  rw [rgbToHex_data hr0 hr1 hg0 hg1 hb0 hb1]
  refine ⟨?_, rfl, ?_, ?_⟩
  · simp [List.length_append, l1, l2, l3]
  · simp only [List.tail_cons, List.all_append, d1, d2, d3, Bool.and_self]
  · exact hexMatch_pairs (jsRound_byte_lt hr0 hr1) (jsRound_byte_lt hg0 hg1)
      (jsRound_byte_lt hb0 hb1)

/-- Witness for `rgbToHex_spec` at `(1/2, 0, 1)`. -/
theorem rgbToHex_spec_w :
    (rgbToHex (1/2) 0 1).data.length = 7 ∧
    hexMatch (rgbToHex (1/2) 0 1).data = some (128, 0, 255) := by
  have h := rgbToHex_spec (1/2) 0 1 one_half_pos.le one_half_lt_one.le
    le_rfl zero_le_one zero_le_one le_rfl
  refine ⟨h.1, ?_⟩
  rw [h.2.2.2]
  have e1 : jsRound ((1/2 : ℚ) * 255) = 128 := by unfold jsRound; norm_num
  have e2 : jsRound ((0 : ℚ) * 255) = 0 := by unfold jsRound; norm_num
  have e3 : jsRound ((1 : ℚ) * 255) = 255 := by unfold jsRound; norm_num
  rw [e1, e2, e3]
  rfl

/-- C7: `hexToRgb` returns channels in `[0, 1]` on every well-formed
6-digit hex color (with or without a leading `#`), and exactly
`[0, 0, 0]` on every malformed string. -/
theorem hexToRgb_spec (s : String) :
    (wellFormedHex6 s.data →
      0 ≤ (hexToRgb s).1 ∧ (hexToRgb s).1 ≤ 1 ∧
      0 ≤ (hexToRgb s).2.1 ∧ (hexToRgb s).2.1 ≤ 1 ∧
      0 ≤ (hexToRgb s).2.2 ∧ (hexToRgb s).2.2 ≤ 1) ∧
    (¬ wellFormedHex6 s.data → hexToRgb s = (0, 0, 0)) := by
  constructor
  · intro hwf
    have hsome := (hexMatch_isSome_iff s.data).mpr hwf
    rcases hm : hexMatch s.data with _ | ⟨a, b, c⟩
    · rw [hm] at hsome; simp at hsome
    · obtain ⟨ha, hb, hc⟩ := hexMatch_le hm
      unfold hexToRgb
      rw [hm]
      have hb255 : (0 : ℚ) < 255 := by norm_num
      refine ⟨?_, ?_, ?_, ?_, ?_, ?_⟩ <;>
        first
          | exact div_nonneg (Nat.cast_nonneg _) hb255.le
          | · rw [div_le_one hb255]
              exact_mod_cast by assumption
  · intro h
    unfold hexToRgb
    rw [hexMatch_eq_none h]

/-- Witness for `hexToRgb_spec`: the malformed 3-digit form `"#abc"`
degrades to `[0,0,0]`; the well-formed `"ccff00"` (no `#`) stays in
range. -/
theorem hexToRgb_spec_w :
    hexToRgb "#abc" = (0, 0, 0) ∧
    (0 ≤ (hexToRgb "ccff00").1 ∧ (hexToRgb "ccff00").1 ≤ 1) := by
  constructor
  · exact (hexToRgb_spec "#abc").2
      (by rw [← hexMatch_isSome_iff]; decide)
  · have h := (hexToRgb_spec "ccff00").1
      ((hexMatch_isSome_iff _).mp (by decide))
    exact ⟨h.1, h.2.1⟩

/-! ## Claim theorems for the registry -/

/-- C2: `setTheme(id)` with an unregistered id returns `false` and leaves
the whole state (registry, CSS properties, dark class, data attribute,
persisted preference, events) unchanged; with a registered id it invokes
the apply routine on the registered theme and returns `true`. -/
theorem setTheme_spec (id : String) (s : SysState) :
    (getTheme id s = none → setTheme id s = (false, s)) ∧
    (∀ t, getTheme id s = some t →
      setTheme id s = (true, { s with dom := applyTheme t s.dom })) := by
  constructor
  · intro h
    unfold setTheme
    rw [show mapGet s.themes id = none from h]
  · intro t h
    unfold setTheme
    rw [show mapGet s.themes id = some t from h]

/-- Witness for `setTheme_spec`: at module load, `"nope"` is rejected with
no effect and `"tennis"` is applied. -/
theorem setTheme_spec_w :
    setTheme "nope" (initState emptyDom) = (false, initState emptyDom) ∧
    (setTheme "tennis" (initState emptyDom)).1 = true := by
  refine ⟨(setTheme_spec "nope" (initState emptyDom)).1 rfl, ?_⟩
  rw [(setTheme_spec "tennis" (initState emptyDom)).2 tennisTheme rfl]

/-- C9: storing is fire-and-forget.  When storage throws
(`storageOk = false`), `saveThemePreference` returns with the state
untouched, `loadThemePreference` returns `null` instead of propagating,
and `applyTheme` still performs all its CSS, class, attribute and event
effects, with the stored preference left stale.  (In the embedding, all
operations are total Lean functions: the `try`/`catch` around the
`Except`-returning storage primitives is the only point where a thrown
error is absorbed, so no operation propagates an exception.) -/
theorem storage_failure_spec (s : DomState) (id : String) (t : Theme)
    (h : s.storageOk = false) :
    saveThemePreference id s = s ∧
    loadThemePreference s = none ∧
    (applyTheme t s).stored = s.stored ∧
    (applyTheme t s).darkClass = t.config.isDark ∧
    (applyTheme t s).dataTheme = some t.config.id ∧
    (applyTheme t s).events = s.events ++ [mkThemeChangeEvent t] ∧
    (∀ kv ∈ themeColorsEntries t.colors,
      (applyTheme t s).cssVars ("--theme-" ++ camelToKebab kv.1) = some kv.2) := by
  obtain ⟨hdark, hdata, hev, _, hcss⟩ := applyTheme_proj t s
  refine ⟨?_, ?_, ?_, hdark, hdata, hev, ?_⟩
  · simp [saveThemePreference, lsSetItem, h]
  · simp [loadThemePreference, lsGetItem, h]
  · unfold applyTheme
    rw [applyThemeColors_frame]
    unfold applyThemeStyles setDarkMode saveThemePreference lsSetItem
      dispatchThemeChange
    rcases t.styles with _ | css <;> simp [h] <;>
      by_cases hcss : css = "" <;> simp [hcss, h]
  · intro kv hkv
    rw [hcss]
    exact applyThemeColors_cssVars t.colors s kv hkv

/-- Witness for `storage_failure_spec` on a document whose storage
throws. -/
theorem storage_failure_spec_w :
    saveThemePreference "tennis" { emptyDom with storageOk := false } =
      { emptyDom with storageOk := false } ∧
    loadThemePreference { emptyDom with storageOk := false } = none ∧
    (applyTheme tennisTheme { emptyDom with storageOk := false }).dataTheme =
      some "tennis" := by
  have h := storage_failure_spec { emptyDom with storageOk := false }
    "tennis" tennisTheme rfl
  exact ⟨h.1, h.2.1, h.2.2.2.2.1⟩

/-! ## Facts about the registry map -/

theorem mapGet_nil (k : String) : mapGet [] k = none := rfl

theorem mapGet_cons (p : String × Theme) (m : List (String × Theme))
    (k : String) :
    mapGet (p :: m) k = if p.1 = k then some p.2 else mapGet m k := by
  unfold mapGet
  rw [List.find?_cons]
  by_cases h : p.1 = k <;> simp [h]

theorem mapGet_append (m : List (String × Theme)) (k : String) (t : Theme)
    (k' : String) :
    mapGet (m ++ [(k, t)]) k' =
      match mapGet m k' with
      | some v => some v
      | none => if k = k' then some t else none := by
  induction m with
  | nil =>
    rw [List.nil_append, mapGet_nil, mapGet_cons, mapGet_nil]
  | cons p rest ih =>
    rw [List.cons_append, mapGet_cons, mapGet_cons]
    by_cases h : p.1 = k' <;> simp [h, ih]

theorem mapGet_map_upd_ne (m : List (String × Theme)) (k : String)
    (t : Theme) (k' : String) (hne : k' ≠ k) :
    mapGet (m.map (fun p => if p.1 = k then (k, t) else p)) k' =
      mapGet m k' := by
  induction m with
  | nil => rfl
  | cons p rest ih =>
    rw [List.map_cons]
    by_cases hp : p.1 = k
    · rw [if_pos hp, mapGet_cons, mapGet_cons]
      have h1 : ¬((k, t).1 = k') := fun h => hne h.symm
      have h2 : ¬(p.1 = k') := fun h => hne (h ▸ hp ▸ rfl)
      rw [if_neg h1, if_neg h2]
      exact ih
    · rw [if_neg hp, mapGet_cons, mapGet_cons]
      by_cases hk : p.1 = k' <;> simp [hk, ih]

theorem mapGet_map_upd_eq (m : List (String × Theme)) (k : String)
    (t : Theme) (h : m.any (fun p => p.1 = k) = true) :
    mapGet (m.map (fun p => if p.1 = k then (k, t) else p)) k = some t := by
  induction m with
  | nil => simp at h
  | cons p rest ih =>
    rw [List.map_cons]
    by_cases hp : p.1 = k
    · rw [if_pos hp, mapGet_cons, if_pos rfl]
    · have h' : rest.any (fun p => p.1 = k) = true := by
        simp only [List.any_cons, Bool.or_eq_true, decide_eq_true_eq] at h
        rcases h with h | h
        · exact absurd h hp
        · exact h
      rw [if_neg hp, mapGet_cons, if_neg hp, ih h']

theorem mapGet_eq_none_of_any_false {m : List (String × Theme)} {k : String}
    (h : m.any (fun p => p.1 = k) = false) : mapGet m k = none := by
  induction m with
  | nil => rfl
  | cons p rest ih =>
    simp only [List.any_cons, Bool.or_eq_false_iff, decide_eq_false_iff_not] at h
    rw [mapGet_cons, if_neg h.1]
    exact ih h.2

/-- `Map.set` semantics for lookups: the written key reads back the new
value, every other key is untouched. -/
theorem mapGet_mapSet (m : List (String × Theme)) (k : String) (t : Theme)
    (k' : String) :
    mapGet (mapSet m k t) k' = if k' = k then some t else mapGet m k' := by
  unfold mapSet
  by_cases hany : m.any (fun p => p.1 = k) = true
  · rw [if_pos hany]
    by_cases hk : k' = k
    · rw [if_pos hk, hk, mapGet_map_upd_eq m k t hany]
    · rw [if_neg hk, mapGet_map_upd_ne m k t k' hk]
  · rw [if_neg hany, mapGet_append]
    have hnone : mapGet m k = none :=
      mapGet_eq_none_of_any_false (Bool.eq_false_iff.mpr hany)
    by_cases hk : k' = k
    · rw [if_pos hk, hk, hnone]
      simp
    · have hk' : ¬k = k' := fun h => hk h.symm
      rcases hm : mapGet m k' with _ | v
      · simp [hm, hk, hk']
      · simp [hm, hk]

theorem keys_map_upd (m : List (String × Theme)) (k : String) (t : Theme) :
    (m.map (fun p => if p.1 = k then (k, t) else p)).map (fun p => p.1) =
      m.map (fun p => p.1) := by
  induction m with
  | nil => rfl
  | cons p rest ih => by_cases hp : p.1 = k <;> simp [hp, ih]

theorem mapGet_isSome_any (m : List (String × Theme)) (k : String) :
    m.any (fun p => p.1 = k) = (mapGet m k).isSome := by
  induction m with
  | nil => rfl
  | cons p rest ih =>
    rw [List.any_cons, mapGet_cons]
    by_cases hp : p.1 = k <;> simp [hp, ih]

theorem any_mapSet_self (m : List (String × Theme)) (k : String)
    (t : Theme) : (mapSet m k t).any (fun p => p.1 = k) = true := by
  rw [mapGet_isSome_any, mapGet_mapSet, if_pos rfl]
  rfl

/-! ## Frame facts for the registry operations -/

theorem setTheme_themes (id : String) (s : SysState) :
    (setTheme id s).2.themes = s.themes := by
  unfold setTheme
  rcases mapGet s.themes id with _ | t <;> rfl

theorem setTheme_allThemes (id : String) (s : SysState) :
    (setTheme id s).2.allThemes = s.allThemes := by
  unfold setTheme
  rcases mapGet s.themes id with _ | t <;> rfl

theorem initializeTheme_themes (s : SysState) :
    (initializeTheme s).2.themes = s.themes := rfl

/-- C3: every sequence of registry operations leaves the default theme id
registered, `getDefaultTheme` returns the theme registered under it, and
the hard-coded fallback is never needed. -/
theorem defaultTheme_invariant (d : DomState) (ops : List RegistryOp) :
    ∃ t, getTheme DEFAULT_THEME_ID (runOps d ops) = some t ∧
      getDefaultTheme (runOps d ops) = t ∧
      hasTheme DEFAULT_THEME_ID (runOps d ops) = true := by
  have key : ∀ (l : List RegistryOp) (s : SysState),
      (mapGet s.themes DEFAULT_THEME_ID).isSome = true →
      (mapGet (l.foldl runOp s).themes DEFAULT_THEME_ID).isSome = true := by
    intro l
    induction l with
    | nil => intro s h; exact h
    | cons op rest ih =>
      intro s h
      rw [List.foldl_cons]
      apply ih
      cases op with
      | register t =>
        show (mapGet (mapSet s.themes t.config.id t) DEFAULT_THEME_ID).isSome = true
        rw [mapGet_mapSet]
        by_cases hk : DEFAULT_THEME_ID = t.config.id <;> simp [hk, h]
      | set id =>
        show (mapGet (setTheme id s).2.themes DEFAULT_THEME_ID).isSome = true
        rw [setTheme_themes]; exact h
      | init =>
        show (mapGet (initializeTheme s).2.themes DEFAULT_THEME_ID).isSome = true
        rw [initializeTheme_themes]; exact h
  have h := key ops (initState d) rfl
  obtain ⟨t, ht0⟩ := Option.isSome_iff_exists.mp h
  have ht : mapGet (runOps d ops).themes DEFAULT_THEME_ID = some t := ht0
  refine ⟨t, ht, ?_, ?_⟩
  · unfold getDefaultTheme
    rw [ht]
    rfl
  · unfold hasTheme
    rw [mapGet_isSome_any, ht]
    rfl

/-- C10: `registerTheme(t)` touches only the registry entry keyed by
`t.config.id` — `getTheme`, `hasTheme` and `getThemeIds` observe the new
entry, every other key is untouched, the DOM is untouched — while the
`allThemes` snapshot taken at module load is left unchanged, so a theme
object absent from the snapshot never appears in it and every snapshot
member (in particular an overwritten built-in) remains in its original
form. -/
theorem registerTheme_spec (s : SysState) (t : Theme) :
    (registerTheme t s).allThemes = s.allThemes ∧
    (registerTheme t s).dom = s.dom ∧
    getTheme t.config.id (registerTheme t s) = some t ∧
    (∀ k, k ≠ t.config.id → getTheme k (registerTheme t s) = getTheme k s) ∧
    hasTheme t.config.id (registerTheme t s) = true ∧
    getThemeIds (registerTheme t s) =
      (if hasTheme t.config.id s then getThemeIds s
       else getThemeIds s ++ [t.config.id]) ∧
    (t ∉ s.allThemes → t ∉ (registerTheme t s).allThemes) ∧
    (∀ th, th ∈ s.allThemes → th ∈ (registerTheme t s).allThemes) := by
  refine ⟨rfl, rfl, ?_, ?_, ?_, ?_, fun h => h, fun th h => h⟩
  · show mapGet (mapSet s.themes t.config.id t) t.config.id = some t
    rw [mapGet_mapSet, if_pos rfl]
  · intro k hk
    show mapGet (mapSet s.themes t.config.id t) k = mapGet s.themes k
    rw [mapGet_mapSet, if_neg hk]
  · exact any_mapSet_self s.themes t.config.id t
  · show (mapSet s.themes t.config.id t).map (fun p => p.1) = _
    unfold mapSet hasTheme getThemeIds
    by_cases hany : s.themes.any (fun p => p.1 = t.config.id) = true
    · rw [if_pos hany, if_pos hany, keys_map_upd]
    · rw [if_neg hany, if_neg hany]
      simp

/-- Witness for `registerTheme_spec`: registering `blankTheme` (id `""`)
at module load leaves `tennis` readable and `allThemes` intact, and
registering over `domain-warping` keeps the original built-in in
`allThemes`. -/
theorem registerTheme_spec_w :
    getTheme "tennis" (registerTheme blankTheme (initState emptyDom)) =
      some tennisTheme ∧
    hasTheme "" (registerTheme blankTheme (initState emptyDom)) = true ∧
    getThemeIds (registerTheme blankTheme (initState emptyDom)) =
      ["domain-warping", "tennis", ""] ∧
    domainWarpingTheme ∈
      (registerTheme { blankTheme with config := { blankTheme.config with id := "domain-warping" } }
        (initState emptyDom)).allThemes := by
  have h := registerTheme_spec (initState emptyDom) blankTheme
  refine ⟨?_, h.2.2.2.2.1, ?_, ?_⟩
  · rw [h.2.2.2.1 "tennis" (by decide)]
    rfl
  · rw [h.2.2.2.2.2.1]
    decide
  · have h2 := registerTheme_spec (initState emptyDom)
      { blankTheme with config := { blankTheme.config with id := "domain-warping" } }
    exact h2.2.2.2.2.2.2.2 domainWarpingTheme (List.mem_cons_self _ _)

/-- Counterexample to C4 as stated: because `initializeTheme` tests the
saved id for JavaScript truthiness (`savedId ? ... : undefined`), a
persisted preference that is the empty string is ignored even when a theme
is registered under the id `""`.  After `registerTheme(blankTheme)` and
`setTheme("")`, the preference `""` exists and matches a registered id,
yet `initializeTheme` returns the default theme, not `blankTheme`. -/
theorem initializeTheme_empty_id_cex :
    loadThemePreference
      (runOps emptyDom [.register blankTheme, .set ""]).dom = some "" ∧
    getTheme "" (runOps emptyDom [.register blankTheme, .set ""]) =
      some blankTheme ∧
    (initializeTheme (runOps emptyDom [.register blankTheme, .set ""])).1 ≠
      blankTheme := by
  refine ⟨rfl, rfl, ?_⟩
  have he : (initializeTheme
      (runOps emptyDom [.register blankTheme, .set ""])).1 =
      domainWarpingTheme := rfl
  rw [he]
  intro h
  exact absurd (congrArg (fun th => th.config.id) h) (by decide)

/-- C4 (amended): `initializeTheme` reads the persisted preference; with
no preference it applies and returns the default; with a non-empty
preference matching a registered id it applies and returns that theme;
with a preference that is empty or matches no registered id it falls back
to the default; in every case it ends by applying the resolved theme and
returning it.  (The empty-string exclusion comes from the truthiness test
`savedId ?` in the source.) -/
theorem initializeTheme_spec (s : SysState) :
    (loadThemePreference s.dom = none →
      initializeTheme s =
        (getDefaultTheme s,
         { s with dom := applyTheme (getDefaultTheme s) s.dom })) ∧
    (∀ id t, loadThemePreference s.dom = some id → id ≠ "" →
      getTheme id s = some t →
      initializeTheme s = (t, { s with dom := applyTheme t s.dom })) ∧
    (∀ id, loadThemePreference s.dom = some id →
      (id = "" ∨ getTheme id s = none) →
      initializeTheme s =
        (getDefaultTheme s,
         { s with dom := applyTheme (getDefaultTheme s) s.dom })) := by
  refine ⟨?_, ?_, ?_⟩
  · intro h
    unfold initializeTheme
    rw [h]
    rfl
  · intro id t h hne ht
    unfold initializeTheme
    rw [h]
    simp only [if_neg hne, ht, Option.getD_some]
  · intro id h hcase
    unfold initializeTheme
    rw [h]
    rcases hcase with rfl | hnone
    · simp
    · by_cases hid : id = ""
      · simp only [if_pos hid, Option.getD_none]
      · simp only [if_neg hid, hnone, Option.getD_none]

/-- Witness for `initializeTheme_spec`: with nothing stored the default is
applied and returned; with `"tennis"` stored (by a prior `setTheme`) the
tennis theme is returned. -/
theorem initializeTheme_spec_w :
    loadThemePreference (initState emptyDom).dom = none ∧
    (initializeTheme (initState emptyDom)).1 = getDefaultTheme (initState emptyDom) ∧
    loadThemePreference (runOps emptyDom [.set "tennis"]).dom = some "tennis" ∧
    (initializeTheme (runOps emptyDom [.set "tennis"])).1 = tennisTheme := by
  refine ⟨rfl, ?_, rfl, ?_⟩
  · rw [(initializeTheme_spec (initState emptyDom)).1 rfl]
  · rw [(initializeTheme_spec (runOps emptyDom [.set "tennis"])).2.1
      "tennis" tennisTheme rfl (by decide) rfl]
